import Mathlib

/-!
Verification development for the CoAP request/response core of the
LWM2M-Contiki repository: the REST resource dispatcher (`rest-engine.c`),
the blocking block-wise request engine (`er-coap-blocking-api.c`), the
uIPv6 endpoint/transport layer with its DTLS keystore hook (the CoAP
transport implementation for uIPv6), and the LWM2M security-object
keystore (`lwm2m-security.c`).

The C code is embedded shallowly: file-scope mutable state becomes
explicit state values passed to the Lean functions, side effects (handler
invocations, timer re-arms) become explicit output lists, and fallible
operations return `Option`.
-/

namespace CoapCore

/-! ## Resource flags and method masks

Modelled from the spec: the capability-flag and method-mask constants come
from `rest-engine.h`, which is not among the provided sources; the spec
describes them as independent capability flags (sub-resource support,
observable, periodic) and per-method handlers, so they are distinct bits of
one mask, as the dispatcher code (`resource->flags & HAS_SUB_RESOURCES`,
`method & METHOD_GET`, ...) requires.  The concrete bit positions do not
matter for any claim. -/

def METHOD_GET : Nat := 1
def METHOD_POST : Nat := 2
def METHOD_PUT : Nat := 4
def METHOD_DELETE : Nat := 8
def HAS_SUB_RESOURCES : Nat := 16
def IS_SEPARATE : Nat := 32
def IS_OBSERVABLE : Nat := 64
def IS_PERIODIC : Nat := 128

/-- A periodic descriptor (`periodic_resource_t`): the period and whether the
`periodic_handler` function pointer is non-NULL.  The handler performs side
effects only, so its presence is all the model needs. -/
structure periodic_resource_t where
  period : Nat
  periodic_handler : Bool
deriving DecidableEq, Repr

/-- A registered resource (`resource_t`): URL path, capability-flag mask, the
presence of each method handler (non-NULL function pointer), and the optional
periodic descriptor. -/
structure resource_t where
  url : List Char
  flags : Nat
  get_handler : Bool
  post_handler : Bool
  put_handler : Bool
  delete_handler : Bool
  periodic : Option periodic_resource_t := none
deriving DecidableEq, Repr

/-- Which method handler the dispatcher's if/else chain selects. -/
inductive MethodKind where
  | GET | POST | PUT | DELETE
deriving DecidableEq, Repr

/-- The response status codes the dispatcher writes
(`REST.status.NOT_FOUND`, `REST.status.METHOD_NOT_ALLOWED`). -/
inductive RestStatus where
  | NOT_FOUND
  | METHOD_NOT_ALLOWED
deriving DecidableEq, Repr

/-- The observable outcome of one `rest_invoke_restful_service` call:
the `found`/`allowed` locals, the method-handler invocations performed
(resource index in registration order, selected method), the status code
written via `REST.set_response_status`, the `REST.subscription_handler`
invocations, and the `return found & allowed` value. -/
structure DispatchResult where
  found : Bool
  allowed : Bool
  invocations : List (Nat × MethodKind)
  status : Option RestStatus
  observes : List Nat
  retval : Bool
deriving DecidableEq, Repr

/-- The URL-match test of the dispatch loop in `rest_invoke_restful_service`:
`(url_len == res_url_len || (url_len > res_url_len && (resource->flags &
HAS_SUB_RESOURCES) && url[res_url_len] == '/')) && strncmp(resource->url,
url, res_url_len) == 0`. -/
def url_match (res : resource_t) (url : List Char) : Bool :=
  (url.length == res.url.length
    || (decide (url.length > res.url.length)
        && (res.flags &&& HAS_SUB_RESOURCES != 0)
        && (url.get? res.url.length == some '/')))
  && (url.take res.url.length == res.url)

/-- The scan of the dispatch loop: first resource (with its registration
index) whose URL matches the request URL; the loop `break`s at the first
match. -/
def find_resource (url : List Char) : List resource_t → Nat → Option (Nat × resource_t)
  | [], _ => none
  | res :: rest, idx =>
    if url_match res url then some (idx, res) else find_resource url rest (idx + 1)

/-- The dispatcher's handler if/else chain for the matched resource:
`(method & METHOD_GET) && get_handler != NULL`, then POST, PUT, DELETE;
`none` means the `else` branch (Method-Not-Allowed) is taken. -/
def selected_handler (method : Nat) (res : resource_t) : Option MethodKind :=
  if (method &&& METHOD_GET != 0) && res.get_handler then some .GET
  else if (method &&& METHOD_POST != 0) && res.post_handler then some .POST
  else if (method &&& METHOD_PUT != 0) && res.put_handler then some .PUT
  else if (method &&& METHOD_DELETE != 0) && res.delete_handler then some .DELETE
  else none

/-- `rest_invoke_restful_service` over the registered resource list:
scan in registration order for the first URL match; on a match run the
handler chain or fail with Method-Not-Allowed; without a match fail with
Not-Found; after a permitted handler run invoke the subscription handler
for observable resources; return `found & allowed`. -/
def rest_invoke_restful_service (services : List resource_t) (method : Nat)
    (url : List Char) : DispatchResult :=
  match find_resource url services 0 with
  | none =>
    { found := false, allowed := true, invocations := [],
      status := some .NOT_FOUND, observes := [], retval := false }
  | some (idx, res) =>
    match selected_handler method res with
    | some mk =>
      { found := true, allowed := true, invocations := [(idx, mk)],
        status := none,
        observes := if res.flags &&& IS_OBSERVABLE != 0 then [idx] else [],
        retval := true }
    | none =>
      { found := true, allowed := false, invocations := [],
        status := some .METHOD_NOT_ALLOWED, observes := [], retval := false }

/-- The observable outcome of one `process_callback` timer expiry: how many
times the periodic handler was invoked and the list of `coap_timer_set`
re-arms performed (each entry is the period passed to the timer). -/
structure CallbackResult where
  handler_invocations : Nat
  rearms : List Nat
deriving DecidableEq, Repr

/-- `process_callback` in `rest-engine.c`: the timer-expiry callback.  Its
inputs are the file-scope `is_initialized` flag and the timer's user data
(the owning resource, possibly NULL).  Inside the guard `resource != NULL &&
(resource->flags & IS_PERIODIC) && resource->periodic != NULL &&
resource->periodic->period`, the handler is invoked unless `is_initialized`
is unset or the handler is NULL, and the timer is re-armed with the same
period unconditionally. -/
def process_callback (is_initialized : Bool) (user_data : Option resource_t) :
    CallbackResult :=
  match user_data with
  | none => { handler_invocations := 0, rearms := [] }
  | some r =>
    if r.flags &&& IS_PERIODIC != 0 then
      match r.periodic with
      | some p =>
        if p.period ≠ 0 then
          { handler_invocations :=
              if !is_initialized then 0
              else if p.periodic_handler then 1 else 0,
            rearms := [p.period] }
        else { handler_invocations := 0, rearms := [] }
      | none => { handler_invocations := 0, rearms := [] }
    else { handler_invocations := 0, rearms := [] }

/-- The file-scope state touched by `rest_init_engine`: the `is_initialized`
flag, the two resource lists, and counters for the externally visible
side effects `REST.set_service_callback(...)` and `REST.init()`. -/
structure RestEngineState where
  is_initialized : Bool
  restful_services : List resource_t
  restful_periodic_services : List periodic_resource_t
  service_callback_registrations : Nat
  server_inits : Nat
deriving DecidableEq, Repr

/-- `rest_init_engine`: returns early if `is_initialized` is already set;
otherwise sets the flag, initializes both lists, registers the service
callback and runs the server init. -/
def rest_init_engine (s : RestEngineState) : RestEngineState :=
  if s.is_initialized then s
  else
    { is_initialized := true,
      restful_services := [],
      restful_periodic_services := [],
      service_callback_registrations := s.service_callback_registrations + 1,
      server_inits := s.server_inits + 1 }

/-! ## Blocking request engine (`coap_blocking_request`) -/

/-- What the environment delivers to one iteration of the
`coap_blocking_request` do/while loop: whether `coap_new_transaction`
succeeded, and — after the yield — the completed transaction's response
(`none` models `state->response == NULL`, e.g. exhausted retransmissions;
otherwise the response's block2 number and `more` flag as read by
`coap_get_header_block2`). -/
structure IterInput where
  alloc_ok : Bool
  response : Option (Nat × Bool)
deriving DecidableEq, Repr

/-- How the protothread terminated: `ended` via `PT_END` (normal loop exit),
`exited` via `PT_EXIT` (allocation failure or missing response).  An
exhausted input list means the process was never polled again; no further
callbacks can occur and we record the run as `exited`. -/
inductive BlockingOutcome where
  | ended
  | exited
deriving DecidableEq, Repr

/-- The body of `coap_blocking_request` (its protothread do/while loop),
parameterized by `COAP_MAX_ATTEMPTS` (a configuration constant defined
outside the provided sources).  State per run: `state->block_num` and the
`block_error` counter, both starting at 0.  Each iteration allocates a
transaction, sends, yields, reads the response block number `res_block` and
`more` flag; on `res_block == block_num` it invokes the caller's response
callback and increments `block_num`, otherwise it increments `block_error`;
it loops `while(more && block_error < COAP_MAX_ATTEMPTS)`.  The result is
the list of `block_num` values at which the response callback was invoked,
in order, together with the termination kind. -/
def coap_blocking_request (maxAttempts : Nat) :
    List IterInput → Nat → Nat → List Nat × BlockingOutcome
  | [], _, _ => ([], .exited)
  | inp :: rest, block_num, block_error =>
    if inp.alloc_ok then
      match inp.response with
      | none => ([], .exited)
      | some (res_block, more) =>
        if res_block == block_num then
          if more && decide (block_error < maxAttempts) then
            let r := coap_blocking_request maxAttempts rest (block_num + 1) block_error
            (block_num :: r.1, r.2)
          else
            ([block_num], .ended)
        else
          if more && decide (block_error + 1 < maxAttempts) then
            coap_blocking_request maxAttempts rest block_num (block_error + 1)
          else
            ([], .ended)
    else ([], .exited)

/-! ## Endpoint layer (CoAP transport implementation for uIPv6) -/

/-- A `coap_endpoint_t`: 128-bit address (as 16 bytes), UDP port and secure
flag.  The port is modelled as its logical value; `UIP_HTONS` only changes
the in-memory byte order, which a shallow embedding does not track, but the
`uint16_t` truncation it implies is kept. -/
structure coap_endpoint_t where
  ipaddr : List Nat
  port : Nat
  secure : Bool
deriving DecidableEq, Repr

/-- `uip_ipaddr_cmp`: structural equality of the two addresses. -/
def uip_ipaddr_cmp (a b : List Nat) : Bool := a == b

/-- `coap_endpoint_cmp`: address, then port and secure flag. -/
def coap_endpoint_cmp (e1 e2 : coap_endpoint_t) : Bool :=
  if !uip_ipaddr_cmp e1.ipaddr e2.ipaddr then false
  else e1.port == e2.port && e1.secure == e2.secure

/-- `index_of`: scan `data[offset..len)` for character `c`; a negative
`offset` is returned unchanged, a failed scan yields `-1`. -/
def index_of (data : List Char) (offset : Int) (len : Nat) (c : Char) : Int :=
  if offset < 0 then offset
  else
    match ((List.range len).drop offset.toNat).find? (fun i => data.get? i == some c) with
    | some i => (i : Int)
    | none => -1

/-- The loop of `get_port`: consume decimal digits (`inbuf[i] >= '0' &&
inbuf[i] <= '9'`, code points 48..57), accumulating the value in a
`uint32_t`; returns the number of digits consumed together with the value
(the C function returns the count and writes the value through a pointer). -/
def get_port_loop : List Char → Nat → Nat → Nat × Nat
  | [], i, value => (i, value)
  | c :: cs, i, value =>
    if 48 ≤ c.toNat ∧ c.toNat ≤ 57 then
      get_port_loop cs (i + 1) ((value * 10 + c.toNat - 48) % 4294967296)
    else (i, value)

/-- `get_port` on the trailing portion of the URI text. -/
def get_port (inbuf : List Char) : Nat × Nat := get_port_loop inbuf 0 0

/-- Hexadecimal digit value, as accepted by the address parser: decimal
digits (code points 48..57), then the lowercase (97..102) and uppercase
(65..70) letter ranges. -/
def hex_digit_value (c : Char) : Option Nat :=
  let n := c.toNat
  if 48 ≤ n ∧ n ≤ 57 then some (n - 48)
  else if 97 ≤ n ∧ n ≤ 102 then some (n - 87)
  else if 65 ≤ n ∧ n ≤ 70 then some (n - 55)
  else none

/-- One 16-bit address group: one to four hex digits. -/
def hexGroupVal : List Char → Nat → Nat → Option Nat
  | [], acc, n => if 1 ≤ n && n ≤ 4 then some acc else none
  | c :: cs, acc, n =>
    match hex_digit_value c with
    | some d => hexGroupVal cs (acc * 16 + d) (n + 1)
    | none => none

/-- Big-endian byte pair of a 16-bit group value. -/
def groupBytes (v : Nat) : List Nat := [v / 256 % 256, v % 256]

/-- Split the address body at every colon, keeping empty pieces (so a `::`
shows up as an empty group). -/
def splitColon : List Char → List (List Char)
  | [] => [[]]
  | c :: cs =>
    let r := splitColon cs
    if c == ':' then [] :: r
    else
      match r with
      | g :: gs => (c :: g) :: gs
      | [] => [[c]]

/-- Parse a colon-free group list where every group must be a valid hex
group; result is the byte string. -/
def parseGroups : List (List Char) → Option (List Nat)
  | [] => some []
  | g :: gs =>
    match hexGroupVal g 0 0, parseGroups gs with
    | some v, some rest => some (groupBytes v ++ rest)
    | _, _ => none

/-- Index of the first empty group, if any. -/
def firstEmptyIdx : List (List Char) → Option Nat
  | [] => none
  | [] :: _ => some 0
  | _ :: gs => (firstEmptyIdx gs).map (· + 1)

/-- Assemble an address from the groups before and after a `::`
zero-compression. -/
def assembleComp (pre post : List (List Char)) : Option (List Nat) :=
  match parseGroups pre, parseGroups post with
  | some a, some b =>
    if a.length + b.length ≤ 14 then
      some (a ++ List.replicate (16 - a.length - b.length) 0 ++ b)
    else none
  | _, _ => none

/-- Modelled from the spec: `uiplib_ipaddrconv`, the textual IPv6-address
parsing collaborator, lives outside the provided sources.  Per the spec the
endpoint address is a 128-bit network address written as a (bracketed) IPv6
literal; the parser skips one leading open bracket, reads up to eight
16-bit hexadecimal groups separated by colons with at most one `::`
zero-compression, stops at a closing bracket, a slash or the end of input,
and fails on any other character or an incomplete address.  This model is
pure: a failed parse produces no partial result. -/
def uiplib_ipaddrconv (text0 : List Char) : Option (List Nat) :=
  let text := if text0.head? == some '[' then text0.tail else text0
  let body := text.takeWhile (fun c => !(c == ']' || c == '/'))
  let gs := splitColon body
  let k := gs.countP (fun g => g.isEmpty)
  if k == 0 then
    if gs.length == 8 then parseGroups gs else none
  else if gs == [[], [], []] then some (List.replicate 16 0)
  else if k == 2 then
    match gs with
    | [] :: [] :: rest => if rest.isEmpty then none else assembleComp [] rest
    | _ =>
      match gs.reverse with
      | [] :: [] :: revpre =>
        if revpre.isEmpty then none else assembleComp revpre.reverse []
      | _ => none
  else if k == 1 then
    match firstEmptyIdx gs with
    | some i =>
      if 0 < i && i + 1 < gs.length then assembleComp (gs.take i) (gs.drop (i + 1))
      else none
    | none => none
  else none

/-- Modelled from the spec: the default ports come from
`er-coap-constants.h`, which is outside the provided sources; the spec's
URI format section says `coaps` implies a default secure port distinct from
the default plaintext port, and these are the standard CoAP values. -/
def COAP_DEFAULT_PORT : Nat := 5683

/-- Modelled from the spec: default secure (coaps) port; see
`COAP_DEFAULT_PORT`. -/
def COAP_DEFAULT_SECURE_PORT : Nat := 5684

/-- `coap_endpoint_parse`: locate a bracketed address, detect the `coaps:`
scheme prefix, and fill in the endpoint.  `ep` is the endpoint value before
the call (the C function writes through a pointer, so fields it does not
assign keep their prior value — in particular, when an explicit port is
present, `ep->secure` is never assigned).  Callers pass `size` as the text
length.  The fallback branch calls `uiplib_ipaddrconv((const char *)&text,
...)` in C, reading the bytes of the pointer variable itself — a memory
representation artifact; the model uses the evident intent, the full URI
text. -/
def coap_endpoint_parse (text : List Char) (size : Nat) (ep : coap_endpoint_t) :
    Option coap_endpoint_t :=
  let start := index_of text 0 size '['
  let endi := index_of text start size ']'
  let secure := text.take 6 == String.toList "coaps:"
  let fallback :=
    match uiplib_ipaddrconv text with
    | some addr => some { ipaddr := addr, port := COAP_DEFAULT_PORT, secure := false }
    | none => (none : Option coap_endpoint_t)
  if decide (0 < start) && decide (start < endi) then
    match uiplib_ipaddrconv (text.drop start.toNat) with
    | some addr =>
      if (text.get? (endi.toNat + 1) == some ':')
          && ((get_port (text.drop (endi.toNat + 2))).1 != 0) then
        some { ipaddr := addr,
               port := (get_port (text.drop (endi.toNat + 2))).2 % 65536,
               secure := ep.secure }
      else if secure then
        some { ipaddr := addr, port := COAP_DEFAULT_SECURE_PORT, secure := true }
      else
        some { ipaddr := addr, port := COAP_DEFAULT_PORT, secure := false }
    | none => fallback
  else fallback

/-- Modelled from the spec: a DTLS peer as seen through
`dtls_peer_is_connected` — whether its handshake has completed (the spec's
"completed (post-handshake) session").  The tinydtls peer structure itself
is outside the provided sources. -/
structure DtlsPeer where
  connected : Bool
deriving DecidableEq, Repr

/-- The DTLS-side state read by `coap_endpoint_is_connected`: whether
`dtls_context` is non-NULL and the peer table. -/
structure DtlsState where
  context : Bool
  peers : List (coap_endpoint_t × DtlsPeer)
deriving DecidableEq, Repr

/-- Modelled from the spec: `dtls_get_peer` (tinydtls, outside the provided
sources) finds the peer whose session equals the given endpoint; session
equality is `dtls_session_equals`, which this repository's DTLS support
file defines as `coap_endpoint_cmp`. -/
def dtls_get_peer (st : DtlsState) (ep : coap_endpoint_t) : Option DtlsPeer :=
  (st.peers.find? (fun p => coap_endpoint_cmp p.1 ep)).map Prod.snd

/-- `coap_endpoint_is_connected` (in a build with DTLS): with RPL compiled
in, no DAG forces 0; for a non-NULL secure endpoint with a DTLS context, a
known peer answers with `dtls_peer_is_connected`; every other path falls
through to `return 1` ("Assume connected"). -/
def coap_endpoint_is_connected (rpl_enabled has_dag : Bool) (st : DtlsState)
    (ep : Option coap_endpoint_t) : Bool :=
  if rpl_enabled && !has_dag then false
  else
    match ep with
    | some e =>
      if e.secure && st.context then
        match dtls_get_peer st e with
        | some peer => peer.connected
        | none => true
      else true
    | none => true

/-! ## DTLS PSK keystore hook (transport layer) -/

/-- A `coap_keystore_psk_entry_t`: identity hint, identity and key, each a
pointer/length pair in C; an empty list models a NULL or zero-length
field (the code always tests `ptr == NULL || len == 0` together). -/
structure coap_keystore_psk_entry_t where
  identity_hint : List Char
  identity : List Char
  key : List Char
deriving DecidableEq, Repr

/-- A registered credential source (`coap_keystore_t`): the
`coap_get_psk_info` callback fills fields of the entry in place; its
`int` return value is ignored by the transport's `get_psk_info`, so the
model is the entry transformer. -/
def Keystore : Type := coap_endpoint_t → coap_keystore_psk_entry_t → coap_keystore_psk_entry_t

/-- The compiled-in `PSK_DEFAULT_IDENTITY` ("Client_identity"). -/
def PSK_DEFAULT_IDENTITY : List Char := String.toList "Client_identity"

/-- The compiled-in `PSK_DEFAULT_KEY` ("secretPSK"). -/
def PSK_DEFAULT_KEY : List Char := String.toList "secretPSK"

/-- `get_default_psk_info`: with no identity in the request, answer the
default identity; with a matching identity, answer the default key; with a
non-matching identity, leave the entry unchanged (the C code returns 0
without writing). -/
def get_default_psk_info (_address_info : coap_endpoint_t)
    (info : coap_keystore_psk_entry_t) : coap_keystore_psk_entry_t :=
  if info.identity.isEmpty then { info with identity := PSK_DEFAULT_IDENTITY }
  else if info.identity == PSK_DEFAULT_IDENTITY then { info with key := PSK_DEFAULT_KEY }
  else info

/-- The credential type requested by tinydtls (`dtls_credentials_type_t`):
`DTLS_PSK_IDENTITY`, `DTLS_PSK_KEY`, or anything else (the `default` case). -/
inductive dtls_credentials_type_t where
  | identity
  | key
  | other
deriving DecidableEq, Repr

/-- The outcome of the transport's `get_psk_info`: the credential bytes
copied into the result buffer with the byte count as (positive) return
value, a bare `return 0`, or a fatal alert (`dtls_alert_fatal_create`,
a negative return).  A fatal result carries no bytes: the code returns
before any `memcpy`, so nothing truncated is ever copied. -/
inductive PskResult where
  | ok (bytes : List Char)
  | zero
  | fatal_internal_error
  | fatal_illegal_parameter
deriving DecidableEq, Repr

/-- The transport's `get_psk_info` (the tinydtls credential callback).
`psk_defaults_enabled` models the `#if defined(PSK_DEFAULT_IDENTITY) &&
defined(PSK_DEFAULT_KEY)` compile-time guard; in this source both macros
are defined unconditionally at the top of the file, so the compiled code
has it `true`.  `dtls_keystore` is the source registered through
`coap_set_keystore` (NULL when none).  `id`/`result_length` are the
identity bytes passed in and the caller's result-buffer capacity. -/
def get_psk_info (psk_defaults_enabled : Bool) (dtls_keystore : Option Keystore)
    (session : coap_endpoint_t) (ty : dtls_credentials_type_t)
    (id : List Char) (result_length : Nat) : PskResult :=
  let keystore? :=
    if psk_defaults_enabled && dtls_keystore.isNone then some get_default_psk_info
    else dtls_keystore
  match keystore? with
  | none => .zero
  | some ks =>
    match ty with
    | .identity =>
      let e1 := ks session { identity_hint := id, identity := [], key := [] }
      if e1.identity.isEmpty then .zero
      else if result_length < e1.identity.length then .fatal_internal_error
      else .ok e1.identity
    | .key =>
      let e1 := ks session { identity_hint := [], identity := id, key := [] }
      if e1.key.isEmpty then .fatal_illegal_parameter
      else if result_length < e1.key.length then .fatal_internal_error
      else .ok e1.key
    | .other => .fatal_internal_error

/-! ## LWM2M security-object keystore (`lwm2m-security.c`) -/

/-- Modelled from the spec: `LWM2M_SECURITY_MODE_PSK` is declared in
`lwm2m-security.h`, outside the provided sources; its value is the OMA
LWM2M PSK security-mode code.  Only inequality with other modes matters
here. -/
def LWM2M_SECURITY_MODE_PSK : Nat := 0

/-- A security-object instance (`lwm2m_security_value_t`): server URI,
security mode, public key (= PSK identity) and secret key.  Each C field is
a buffer plus a length; the list models exactly the first `len` bytes. -/
structure lwm2m_security_value_t where
  server_uri : List Char
  security_mode : Nat
  public_key : List Char
  secret_key : List Char
deriving DecidableEq, Repr

/-- The scan loop of the LWM2M `get_psk_info`: find the first security
instance whose server URI parses to an endpoint equal to the peer and, when
an identity is being searched for, whose public key equals it.  `scratch`
is the uninitialized stack variable `coap_endpoint_t ep` that every
iteration parses into; a successful parse replaces it, a failed parse
leaves it (see `coap_endpoint_parse` on partial results). -/
def find_security_instance (address_info : coap_endpoint_t) (identity : List Char) :
    List lwm2m_security_value_t → coap_endpoint_t → Option lwm2m_security_value_t
  | [], _ => none
  | e :: rest, scratch =>
    if e.server_uri.isEmpty then
      find_security_instance address_info identity rest scratch
    else if e.security_mode != LWM2M_SECURITY_MODE_PSK then
      find_security_instance address_info identity rest scratch
    else
      match coap_endpoint_parse e.server_uri e.server_uri.length scratch with
      | none => find_security_instance address_info identity rest scratch
      | some ep =>
        if !coap_endpoint_cmp address_info ep then
          find_security_instance address_info identity rest ep
        else if !identity.isEmpty && !(identity == e.public_key) then
          find_security_instance address_info identity rest ep
        else some e

/-- The LWM2M security object's `get_psk_info` (the keystore callback
registered by `lwm2m_security_init`): scan the instance list for the
peer's endpoint; with no identity in the request answer the instance's
public key as identity, otherwise answer its secret key; `none` models
`return 0` (no credential). -/
def lwm2m_get_psk_info (entries : List lwm2m_security_value_t)
    (address_info : coap_endpoint_t) (info : coap_keystore_psk_entry_t)
    (scratch : coap_endpoint_t) : Option coap_keystore_psk_entry_t :=
  match find_security_instance address_info info.identity entries scratch with
  | none => none
  | some e =>
    if info.identity.isEmpty then some { info with identity := e.public_key }
    else if e.secret_key.isEmpty then none
    else some { info with key := e.secret_key }

/-! ## Concrete values used by counterexamples and witnesses -/

/-- An all-zero scratch endpoint. -/
def ep_zero : coap_endpoint_t := ⟨List.replicate 16 0, 0, false⟩

/-- The address `2001:db8::1` as bytes. -/
def addr_2001_db8_1 : List Nat := [32, 1, 13, 184, 0, 0, 0, 0, 0, 0, 0, 0, 0, 0, 0, 1]

/-- The address `fd00::1` as bytes. -/
def addr_fd00_1 : List Nat := [253, 0, 0, 0, 0, 0, 0, 0, 0, 0, 0, 0, 0, 0, 0, 1]

/-- A periodic resource with a five-unit period and a NULL periodic
handler. -/
def periodic_no_handler_resource : resource_t :=
  { url := String.toList "per", flags := IS_PERIODIC,
    get_handler := false, post_handler := false,
    put_handler := false, delete_handler := false,
    periodic := some { period := 5, periodic_handler := false } }

/-- A security instance registered for server `coap://[fd00::1]` in PSK
mode. -/
def sec_entry_fd00 : lwm2m_security_value_t :=
  { server_uri := String.toList "coap://[fd00::1]",
    security_mode := LWM2M_SECURITY_MODE_PSK,
    public_key := String.toList "id-a",
    secret_key := String.toList "key-a" }

/-- A peer endpoint different from every entry in the examples: address
`2001:db8::1`, plaintext port. -/
def peer_other : coap_endpoint_t := ⟨addr_2001_db8_1, 5683, false⟩

/-- A periodic resource with a seven-unit period and a live handler. -/
def periodic_with_handler_resource : resource_t :=
  { url := String.toList "clock", flags := IS_PERIODIC,
    get_handler := false, post_handler := false,
    put_handler := false, delete_handler := false,
    periodic := some { period := 7, periodic_handler := true } }

/-- A resource at path `t1` with only a GET handler and no sub-resource
support. -/
def res_t1 : resource_t :=
  { url := String.toList "t1", flags := 0,
    get_handler := true, post_handler := false,
    put_handler := false, delete_handler := false }

/-- A resource at path `t2` with a GET handler and sub-resource support. -/
def res_t2 : resource_t :=
  { url := String.toList "t2", flags := HAS_SUB_RESOURCES,
    get_handler := true, post_handler := false,
    put_handler := false, delete_handler := false }

/-! ## Theorems -/

/-- C10: initializing the REST engine is idempotent — every later call
after the first is a complete no-op (it leaves the flag, the resource
lists, the service-callback registration and the server-init count
unchanged), because `rest_init_engine` returns immediately when
`is_initialized` is already set, and a first call always sets the flag. -/
theorem rest_init_engine_idempotent :
    (∀ s : RestEngineState, rest_init_engine (rest_init_engine s) = rest_init_engine s)
    ∧ (∀ s : RestEngineState, s.is_initialized = true → rest_init_engine s = s)
    ∧ (∀ s : RestEngineState, (rest_init_engine s).is_initialized = true) := by
  refine ⟨?_, ?_, ?_⟩ <;> intro s
  · by_cases h : s.is_initialized <;> simp [rest_init_engine, h]
  · intro h; simp [rest_init_engine, h]
  · by_cases h : s.is_initialized <;> simp [rest_init_engine, h]

/-- Witness for C10 at a concrete already-initialized state. -/
theorem rest_init_engine_idempotent_witness :
    rest_init_engine
      { is_initialized := true, restful_services := [res_t1],
        restful_periodic_services := [], service_callback_registrations := 1,
        server_inits := 1 }
      = { is_initialized := true, restful_services := [res_t1],
          restful_periodic_services := [], service_callback_registrations := 1,
          server_inits := 1 } :=
  rest_init_engine_idempotent.2.1 _ rfl

/-- C7 (counterexample): the claim conditions the timer re-arm on the
resource having a handler; `process_callback` re-arms a periodic resource
with a NULL periodic handler all the same (while invoking nothing). -/
theorem process_callback_rearm_without_handler_counterexample :
    (process_callback true (some periodic_no_handler_resource)).rearms = [5]
    ∧ (process_callback true (some periodic_no_handler_resource)).handler_invocations = 0
    ∧ periodic_no_handler_resource.periodic
        = some { period := 5, periodic_handler := false } := by
  decide

/-- C7 (amended): on a timer expiry for a resource that is still flagged
periodic, with a periodic descriptor and a non-zero period, the handler is
invoked exactly when the registry has completed initialization and the
handler is non-NULL, and the timer is re-armed with the same period exactly
once per expiry — regardless of handler presence or initialization. -/
theorem process_callback_expiry_spec (ini : Bool) (r : resource_t)
    (p : periodic_resource_t) (hp : r.periodic = some p)
    (hf : r.flags &&& IS_PERIODIC ≠ 0) (hper : p.period ≠ 0) :
    process_callback ini (some r)
      = { handler_invocations := if ini && p.periodic_handler then 1 else 0,
          rearms := [p.period] } := by
  simp only [process_callback, hp]
  rw [if_pos (by simpa using hf), if_pos hper]
  cases ini <;> cases hh : p.periodic_handler <;> simp

/-- Witness for C7 at a concrete initialized periodic resource. -/
theorem process_callback_expiry_spec_witness :
    process_callback true (some periodic_with_handler_resource)
      = { handler_invocations := 1, rearms := [7] } := by
  have h := process_callback_expiry_spec true periodic_with_handler_resource
    { period := 7, periodic_handler := true } rfl (by decide) (by decide)
  simpa using h

/-- C6 (counterexample): for a secure endpoint with a live DTLS context but
no peer (no session at all), `coap_endpoint_is_connected` falls through to
`return 1` — it answers `true`, where the claim requires `false`. -/
theorem endpoint_is_connected_no_peer_counterexample :
    coap_endpoint_is_connected false true { context := true, peers := [] }
      (some ⟨addr_fd00_1, 5684, true⟩) = true := by
  decide

/-- C6 (amended): with the reachability precondition passing, a secure
endpoint with a known DTLS peer answers that peer's post-handshake
connected state; a secure endpoint with no peer, or no DTLS context, and
every plaintext or NULL endpoint, answers `true` (assume connected); with
RPL compiled in and no DAG, every endpoint answers `false`. -/
theorem endpoint_is_connected_spec :
    (∀ (rpl dag : Bool) (st : DtlsState) (e : coap_endpoint_t) (peer : DtlsPeer),
       (rpl && !dag) = false → e.secure = true → st.context = true →
       dtls_get_peer st e = some peer →
       coap_endpoint_is_connected rpl dag st (some e) = peer.connected)
    ∧ (∀ (rpl dag : Bool) (st : DtlsState) (e : coap_endpoint_t),
       (rpl && !dag) = false → dtls_get_peer st e = none →
       coap_endpoint_is_connected rpl dag st (some e) = true)
    ∧ (∀ (rpl dag : Bool) (st : DtlsState) (e : coap_endpoint_t),
       (rpl && !dag) = false → (e.secure = false ∨ st.context = false) →
       coap_endpoint_is_connected rpl dag st (some e) = true)
    ∧ (∀ (st : DtlsState) (ep : Option coap_endpoint_t),
       coap_endpoint_is_connected true false st ep = false) := by
  refine ⟨?_, ?_, ?_, ?_⟩
  · intro rpl dag st e peer hrpl hsec hctx hpeer
    simp [coap_endpoint_is_connected, hrpl, hsec, hctx, hpeer]
  · intro rpl dag st e hrpl hpeer
    by_cases hsec : e.secure <;> by_cases hctx : st.context <;>
      simp [coap_endpoint_is_connected, hrpl, hsec, hctx, hpeer]
  · intro rpl dag st e hrpl hcase
    rcases hcase with h | h <;> simp [coap_endpoint_is_connected, hrpl, h]
  · intro st ep
    simp [coap_endpoint_is_connected]

/-- Witness for C6: concrete secure endpoints with a connected and with a
not-yet-connected peer, a plaintext endpoint, and the no-DAG case. -/
theorem endpoint_is_connected_spec_witness :
    coap_endpoint_is_connected false true
      { context := true, peers := [(⟨addr_fd00_1, 5684, true⟩, ⟨true⟩)] }
      (some ⟨addr_fd00_1, 5684, true⟩) = true
    ∧ coap_endpoint_is_connected false true
      { context := true, peers := [(⟨addr_fd00_1, 5684, true⟩, ⟨false⟩)] }
      (some ⟨addr_fd00_1, 5684, true⟩) = false
    ∧ coap_endpoint_is_connected false true
      { context := true, peers := [] } (some ⟨addr_fd00_1, 5683, false⟩) = true
    ∧ coap_endpoint_is_connected true false
      { context := true, peers := [] } (some ⟨addr_fd00_1, 5684, true⟩) = false := by
  refine ⟨?_, ?_, ?_, ?_⟩
  · exact endpoint_is_connected_spec.1 false true _ _ ⟨true⟩ rfl rfl rfl (by decide)
  · exact endpoint_is_connected_spec.1 false true _ _ ⟨false⟩ rfl rfl rfl (by decide)
  · exact endpoint_is_connected_spec.2.2.1 false true _ _ rfl (Or.inl rfl)
  · exact endpoint_is_connected_spec.2.2.2 _ _

/-- C5 (counterexample): with no keystore registered, a PSK identity
lookup does not fail — the compiled-in default keystore (whose enabling
macros this source defines unconditionally) answers `Client_identity`. -/
theorem get_psk_info_no_keystore_counterexample :
    get_psk_info true none ep_zero .identity [] 64 = .ok PSK_DEFAULT_IDENTITY := by
  decide

/-- C5 (amended): with no keystore registered, a lookup fails only when
the compiled-in default identity/key pair is disabled; when it is enabled
— as in this source, where `PSK_DEFAULT_IDENTITY`/`PSK_DEFAULT_KEY` are
defined unconditionally — the default pair serves as the fallback source. -/
theorem get_psk_info_default_fallback_spec :
    (∀ (ep : coap_endpoint_t) (ty : dtls_credentials_type_t) (id : List Char) (rl : Nat),
       get_psk_info false none ep ty id rl = .zero)
    ∧ (∀ (ep : coap_endpoint_t) (rl : Nat), PSK_DEFAULT_IDENTITY.length ≤ rl →
       get_psk_info true none ep .identity [] rl = .ok PSK_DEFAULT_IDENTITY)
    ∧ (∀ (ep : coap_endpoint_t) (rl : Nat), PSK_DEFAULT_KEY.length ≤ rl →
       get_psk_info true none ep .key PSK_DEFAULT_IDENTITY rl = .ok PSK_DEFAULT_KEY) := by
  refine ⟨?_, ?_, ?_⟩
  · intro ep ty id rl
    simp [get_psk_info]
  · intro ep rl h
    simp [get_psk_info, get_default_psk_info, Nat.not_lt.mpr h]
    all_goals decide
  · intro ep rl h
    have e1 : get_default_psk_info ep
        { identity_hint := [], identity := PSK_DEFAULT_IDENTITY, key := [] }
        = { identity_hint := [], identity := PSK_DEFAULT_IDENTITY,
            key := PSK_DEFAULT_KEY } := rfl
    have hnl : ¬ rl < PSK_DEFAULT_KEY.length := Nat.not_lt.mpr h
    simp [get_psk_info, e1, hnl]
    all_goals decide

/-- Witness for C5 at concrete buffer sizes. -/
theorem get_psk_info_default_fallback_spec_witness :
    get_psk_info false none ep_zero .identity [] 64 = .zero
    ∧ get_psk_info true none ep_zero .identity [] 64 = .ok PSK_DEFAULT_IDENTITY
    ∧ get_psk_info true none ep_zero .key PSK_DEFAULT_IDENTITY 64 = .ok PSK_DEFAULT_KEY :=
  ⟨get_psk_info_default_fallback_spec.1 ep_zero .identity [] 64,
   get_psk_info_default_fallback_spec.2.1 ep_zero 64 (by decide),
   get_psk_info_default_fallback_spec.2.2 ep_zero 64 (by decide)⟩

/-- C8: for any registered credential source, when the resolved identity
or key is longer than the caller's result buffer the lookup returns the
fatal internal-error alert (and, the fatal results carrying no bytes,
nothing truncated is copied); when it fits, the full credential is
returned with its length. -/
theorem get_psk_info_buffer_bound_spec :
    (∀ (d : Bool) (ks : Keystore) (s : coap_endpoint_t) (id : List Char) (rl : Nat),
       (ks s ⟨id, [], []⟩).identity ≠ [] →
       rl < (ks s ⟨id, [], []⟩).identity.length →
       get_psk_info d (some ks) s .identity id rl = .fatal_internal_error)
    ∧ (∀ (d : Bool) (ks : Keystore) (s : coap_endpoint_t) (id : List Char) (rl : Nat),
       (ks s ⟨id, [], []⟩).identity ≠ [] →
       (ks s ⟨id, [], []⟩).identity.length ≤ rl →
       get_psk_info d (some ks) s .identity id rl = .ok ((ks s ⟨id, [], []⟩).identity))
    ∧ (∀ (d : Bool) (ks : Keystore) (s : coap_endpoint_t) (id : List Char) (rl : Nat),
       (ks s ⟨[], id, []⟩).key ≠ [] →
       rl < (ks s ⟨[], id, []⟩).key.length →
       get_psk_info d (some ks) s .key id rl = .fatal_internal_error)
    ∧ (∀ (d : Bool) (ks : Keystore) (s : coap_endpoint_t) (id : List Char) (rl : Nat),
       (ks s ⟨[], id, []⟩).key ≠ [] →
       (ks s ⟨[], id, []⟩).key.length ≤ rl →
       get_psk_info d (some ks) s .key id rl = .ok ((ks s ⟨[], id, []⟩).key)) := by
  refine ⟨?_, ?_, ?_, ?_⟩ <;> intro d ks s id rl h1 h2 <;>
    simp [get_psk_info, List.isEmpty_iff, h1, h2, Nat.not_lt.mpr h2]

/-- Witness for C8: the default keystore's identity against a
three-byte buffer (too small) and a 64-byte buffer (fits). -/
theorem get_psk_info_buffer_bound_spec_witness :
    get_psk_info true (some (fun a e => get_default_psk_info a e)) ep_zero .identity [] 3
      = .fatal_internal_error
    ∧ get_psk_info true (some (fun a e => get_default_psk_info a e)) ep_zero .identity [] 64
      = .ok PSK_DEFAULT_IDENTITY := by
  constructor
  · exact get_psk_info_buffer_bound_spec.1 true _ ep_zero [] 3 (by decide) (by decide)
  · exact get_psk_info_buffer_bound_spec.2.1 true _ ep_zero [] 64 (by decide) (by decide)

/-- C4 (evaluation at the failing input): parsing
`coap://[2001:db8::1]:5683` yields the right address and port, but the
`secure` field keeps whatever value the endpoint held before the call —
with prior value `true` the result is `secure=true`, where the claim
requires `secure=false` (the explicit-port branch of the C code never
assigns `ep->secure`).  With prior value `false` the claimed triple
happens to come out.  The no-port `coaps` case does set the default secure
port and `secure=true`, and a bracketed but unparseable address is a hard
parse failure. -/
theorem coap_endpoint_parse_secure_flag_eval :
    coap_endpoint_parse (String.toList "coap://[2001:db8::1]:5683") 25
      ⟨List.replicate 16 0, 0, true⟩ = some ⟨addr_2001_db8_1, 5683, true⟩
    ∧ coap_endpoint_parse (String.toList "coap://[2001:db8::1]:5683") 25 ep_zero
      = some ⟨addr_2001_db8_1, 5683, false⟩
    ∧ coap_endpoint_parse (String.toList "coaps://[2001:db8::1]") 21 ep_zero
      = some ⟨addr_2001_db8_1, 5684, true⟩
    ∧ coap_endpoint_parse (String.toList "coap://[zzzz]") 13 ep_zero = none := by
  refine ⟨?_, ?_, ?_, ?_⟩ <;> decide

/-- A resource always matches its own URL. -/
theorem url_match_self (r : resource_t) : url_match r r.url = true := by
  simp [url_match, List.take_length]

/-- Equal length plus prefix equality is URL equality. -/
theorem take_eq_iff_eq (url ru : List Char) :
    (url.length = ru.length ∧ url.take ru.length = ru) ↔ url = ru := by
  constructor
  · rintro ⟨h1, h2⟩
    have : url.take ru.length = url := List.take_of_length_le (le_of_eq h1)
    rw [this] at h2; exact h2
  · rintro rfl; exact ⟨rfl, List.take_length _⟩

/-- The dispatch scan skips a prefix of non-matching resources and stops at
the first match, reporting its registration index. -/
theorem find_resource_append_first (url : List Char) (pre post : List resource_t)
    (r : resource_t) (idx : Nat) (hpre : ∀ q ∈ pre, url_match q url = false)
    (hr : url_match r url = true) :
    find_resource url (pre ++ r :: post) idx = some (idx + pre.length, r) := by
  induction pre generalizing idx with
  | nil => simp [find_resource, hr]
  | cons q qs ih =>
    have hq : url_match q url = false := hpre q (List.mem_cons_self q qs)
    have ih2 := ih (idx + 1) (fun p hp => hpre p (List.mem_cons_of_mem q hp))
    simp only [List.cons_append, find_resource, hq, Bool.false_eq_true, if_false,
      List.length_cons]
    rw [List.append_eq, ih2]
    simp only [Option.some.injEq, Prod.mk.injEq]
    exact ⟨by omega, trivial⟩

/-- The dispatch scan over a list of non-matching resources fails. -/
theorem find_resource_none (url : List Char) (l : List resource_t) (idx : Nat)
    (h : ∀ q ∈ l, url_match q url = false) : find_resource url l idx = none := by
  induction l generalizing idx with
  | nil => rfl
  | cons q qs ih =>
    have hq : url_match q url = false := h q (List.mem_cons_self q qs)
    simp only [find_resource, hq, Bool.false_eq_true, if_false]
    exact ih (idx + 1) (fun p hp => h p (List.mem_cons_of_mem q hp))

/-- A resource at path `p` without the sub-resource flag does not match the
sub-path `p/x`. -/
theorem url_match_subpath_no_flag (q : resource_t) (p x : List Char)
    (hq : q.url = p) (hf : q.flags &&& HAS_SUB_RESOURCES = 0) :
    url_match q (p ++ '/' :: x) = false := by
  simp [url_match, hq, hf]

/-- C1: a resource matches the request path iff the path equals the
resource path or strictly extends it with a `/` at the boundary while the
resource carries the sub-resource flag; dispatch scans in registration
order, so an exact-path request with a supported method runs exactly the
first matching resource's handler and nothing else; and a request for a
sub-path `p/x` reports Not-Found when the resources at `p` lack the
sub-resource flag and nothing else matches. -/
theorem rest_dispatch_first_match_spec :
    (∀ (res : resource_t) (url : List Char),
       url_match res url = true ↔
         (url = res.url ∨
          (res.url.length < url.length ∧ url.take res.url.length = res.url ∧
           url.get? res.url.length = some '/' ∧ res.flags &&& HAS_SUB_RESOURCES ≠ 0)))
    ∧ (∀ (pre post : List resource_t) (r : resource_t) (method : Nat) (mk : MethodKind),
       (∀ q ∈ pre, url_match q r.url = false) →
       selected_handler method r = some mk →
       (rest_invoke_restful_service (pre ++ r :: post) method r.url).invocations
         = [(pre.length, mk)]
       ∧ (rest_invoke_restful_service (pre ++ r :: post) method r.url).retval = true)
    ∧ (∀ (l : List resource_t) (p x : List Char) (method : Nat),
       (∀ q ∈ l, q.url = p ∨ url_match q (p ++ '/' :: x) = false) →
       (∀ q ∈ l, q.url = p → q.flags &&& HAS_SUB_RESOURCES = 0) →
       (rest_invoke_restful_service l method (p ++ '/' :: x)).status
         = some RestStatus.NOT_FOUND
       ∧ (rest_invoke_restful_service l method (p ++ '/' :: x)).invocations = []) := by
  refine ⟨?_, ?_, ?_⟩
  · intro res url
    simp only [url_match, Bool.and_eq_true, Bool.or_eq_true, beq_iff_eq,
      decide_eq_true_eq, bne_iff_ne, ne_eq]
    constructor
    · rintro ⟨h1 | ⟨⟨h1, h2⟩, h3⟩, h4⟩
      · exact Or.inl ((take_eq_iff_eq url res.url).mp ⟨h1, h4⟩)
      · exact Or.inr ⟨h1, h4, h3, h2⟩
    · rintro (rfl | ⟨h1, h2, h3, h4⟩)
      · exact ⟨Or.inl rfl, List.take_length _⟩
      · exact ⟨Or.inr ⟨⟨h1, h4⟩, h3⟩, h2⟩
  · intro pre post r method mk hpre hsel
    have hfind := find_resource_append_first r.url pre post r 0 hpre (url_match_self r)
    simp only [Nat.zero_add] at hfind
    simp [rest_invoke_restful_service, hfind, hsel]
  · intro l p x method h1 h2
    have hnone : find_resource (p ++ '/' :: x) l 0 = none := by
      apply find_resource_none
      intro q hq
      rcases h1 q hq with h | h
      · exact url_match_subpath_no_flag q p x h (h2 q hq h)
      · exact h
    simp [rest_invoke_restful_service, hnone]

/-- Witness for C1: two registered resources, the second matching exactly;
and a sub-path request against a resource without sub-resource support. -/
theorem rest_dispatch_first_match_spec_witness :
    ((rest_invoke_restful_service [res_t2, res_t1] METHOD_GET res_t1.url).invocations
       = [(1, .GET)]
     ∧ (rest_invoke_restful_service [res_t2, res_t1] METHOD_GET res_t1.url).retval = true)
    ∧ ((rest_invoke_restful_service [res_t1] METHOD_GET
          (String.toList "t1" ++ '/' :: String.toList "z")).status
         = some RestStatus.NOT_FOUND
       ∧ (rest_invoke_restful_service [res_t1] METHOD_GET
            (String.toList "t1" ++ '/' :: String.toList "z")).invocations = []) := by
  constructor
  · exact rest_dispatch_first_match_spec.2.1 [res_t2] [] res_t1 METHOD_GET .GET
      (by decide) (by decide)
  · exact rest_dispatch_first_match_spec.2.2 [res_t1] (String.toList "t1")
      (String.toList "z") METHOD_GET (by decide) (by decide)

/-- C2: on the first matching resource without a handler for the method,
dispatch reports Method-Not-Allowed, invokes no handler, ignores every
later resource (the result does not depend on them) and returns false; with
no match it reports Not-Found and returns false; and the return value is
true exactly when a method handler was invoked. -/
theorem rest_dispatch_method_gate_spec :
    (∀ (pre post post2 : List resource_t) (r : resource_t) (method : Nat)
       (url : List Char),
       (∀ q ∈ pre, url_match q url = false) → url_match r url = true →
       selected_handler method r = none →
       (rest_invoke_restful_service (pre ++ r :: post) method url).status
         = some RestStatus.METHOD_NOT_ALLOWED
       ∧ (rest_invoke_restful_service (pre ++ r :: post) method url).invocations = []
       ∧ (rest_invoke_restful_service (pre ++ r :: post) method url).observes = []
       ∧ (rest_invoke_restful_service (pre ++ r :: post) method url).retval = false
       ∧ rest_invoke_restful_service (pre ++ r :: post) method url
           = rest_invoke_restful_service (pre ++ r :: post2) method url)
    ∧ (∀ (l : List resource_t) (method : Nat) (url : List Char),
       (∀ q ∈ l, url_match q url = false) →
       (rest_invoke_restful_service l method url).status = some RestStatus.NOT_FOUND
       ∧ (rest_invoke_restful_service l method url).retval = false)
    ∧ (∀ (l : List resource_t) (method : Nat) (url : List Char),
       (rest_invoke_restful_service l method url).retval = true ↔
       (rest_invoke_restful_service l method url).invocations ≠ []) := by
  refine ⟨?_, ?_, ?_⟩
  · intro pre post post2 r method url hpre hr hsel
    have hfind := find_resource_append_first url pre post r 0 hpre hr
    have hfind2 := find_resource_append_first url pre post2 r 0 hpre hr
    simp only [Nat.zero_add] at hfind hfind2
    simp [rest_invoke_restful_service, hfind, hfind2, hsel]
  · intro l method url h
    simp [rest_invoke_restful_service, find_resource_none url l 0 h]
  · intro l method url
    unfold rest_invoke_restful_service
    cases hfind : find_resource url l 0 with
    | none => simp
    | some pr =>
      obtain ⟨idx, res⟩ := pr
      cases hsel : selected_handler method res <;> simp [hsel]

/-- Witness for C2: a POST against the GET-only resource, and a request
matching nothing. -/
theorem rest_dispatch_method_gate_spec_witness :
    ((rest_invoke_restful_service [res_t1] METHOD_POST res_t1.url).status
       = some RestStatus.METHOD_NOT_ALLOWED
     ∧ (rest_invoke_restful_service [res_t1] METHOD_POST res_t1.url).invocations = []
     ∧ (rest_invoke_restful_service [res_t1] METHOD_POST res_t1.url).observes = []
     ∧ (rest_invoke_restful_service [res_t1] METHOD_POST res_t1.url).retval = false
     ∧ rest_invoke_restful_service [res_t1] METHOD_POST res_t1.url
         = rest_invoke_restful_service [res_t1, res_t2] METHOD_POST res_t1.url)
    ∧ ((rest_invoke_restful_service [res_t2] METHOD_GET res_t1.url).status
         = some RestStatus.NOT_FOUND
       ∧ (rest_invoke_restful_service [res_t2] METHOD_GET res_t1.url).retval = false) := by
  constructor
  · exact rest_dispatch_method_gate_spec.1 [] [] [res_t2] res_t1 METHOD_POST res_t1.url
      (by decide) (by decide) (by decide)
  · exact rest_dispatch_method_gate_spec.2.1 [res_t2] METHOD_GET res_t1.url (by decide)

/-- The response-callback invocations of a blocking request starting at
cursor `b` form a run of consecutive block numbers from `b`. -/
theorem blocking_calls_range (m : Nat) (env : List IterInput) :
    ∀ (b e : Nat), ∃ k, (coap_blocking_request m env b e).1 = List.range' b k := by
  induction env with
  | nil => intro b e; exact ⟨0, rfl⟩
  | cons inp rest ih =>
    intro b e
    by_cases ha : inp.alloc_ok
    · cases hr : inp.response with
      | none => exact ⟨0, by simp [coap_blocking_request, ha, hr]⟩
      | some pr =>
        obtain ⟨rb, more⟩ := pr
        by_cases hb : rb == b
        · by_cases hc : more && decide (e < m)
          · obtain ⟨k, hk⟩ := ih (b + 1) e
            refine ⟨k + 1, ?_⟩
            simp [coap_blocking_request, ha, hr, hb, hc, hk, List.range'_succ]
          · refine ⟨1, ?_⟩
            simp [coap_blocking_request, ha, hr, hb, hc, List.range'_succ]
        · by_cases hc : more && decide (e + 1 < m)
          · obtain ⟨k, hk⟩ := ih b (e + 1)
            exact ⟨k, by simp [coap_blocking_request, ha, hr, hb, hc, hk]⟩
          · exact ⟨0, by simp [coap_blocking_request, ha, hr, hb, hc]⟩
    · exact ⟨0, by simp [coap_blocking_request, ha]⟩

/-- C3: over every environment (any sequence of allocation results and
delivered responses), the response callback of a blocking request is
invoked for block numbers `0, 1, 2, ...` in order — strictly increasing,
hence at most once per block and never out of order; and on the concrete
three-block response run (blocks 0, 1, 2 with `more` cleared on block 2)
it is invoked exactly three times, in order, and the call ends normally. -/
theorem blocking_request_callback_order :
    (∀ (m : Nat) (env : List IterInput),
       (coap_blocking_request m env 0 0).1
         = List.range (coap_blocking_request m env 0 0).1.length)
    ∧ (∀ (m : Nat) (env : List IterInput),
       List.Pairwise (· < ·) (coap_blocking_request m env 0 0).1)
    ∧ (∀ m : Nat, 0 < m →
       coap_blocking_request m
         [⟨true, some (0, true)⟩, ⟨true, some (1, true)⟩, ⟨true, some (2, false)⟩] 0 0
         = ([0, 1, 2], .ended)) := by
  have key : ∀ (m : Nat) (env : List IterInput),
      (coap_blocking_request m env 0 0).1
        = List.range (coap_blocking_request m env 0 0).1.length := by
    intro m env
    obtain ⟨k, hk⟩ := blocking_calls_range m env 0 0
    rw [hk, List.length_range', List.range_eq_range']
  refine ⟨key, ?_, ?_⟩
  · intro m env
    rw [key m env]
    exact List.pairwise_lt_range _
  · intro m hm
    have h0 : decide (0 < m) = true := decide_eq_true hm
    simp [coap_blocking_request, h0]

/-- Witness for C3 at `COAP_MAX_ATTEMPTS = 4`. -/
theorem blocking_request_callback_order_witness :
    (0 : Nat) < 4
    ∧ coap_blocking_request 4
        [⟨true, some (0, true)⟩, ⟨true, some (1, true)⟩, ⟨true, some (2, false)⟩] 0 0
        = ([0, 1, 2], .ended) :=
  ⟨by decide, blocking_request_callback_order.2.2 4 (by decide)⟩

/-- The scan of the LWM2M keystore fails whatever the scratch endpoint
holds, when every entry is unusable (empty URI or non-PSK mode) or its URI
never parses to the peer's endpoint. -/
theorem find_security_instance_no_match (addr : coap_endpoint_t)
    (identity : List Char) (entries : List lwm2m_security_value_t)
    (h : ∀ e ∈ entries,
       e.server_uri = [] ∨ e.security_mode ≠ LWM2M_SECURITY_MODE_PSK ∨
       (∀ (s ep : coap_endpoint_t),
          coap_endpoint_parse e.server_uri e.server_uri.length s = some ep →
          coap_endpoint_cmp addr ep = false)) :
    ∀ scratch, find_security_instance addr identity entries scratch = none := by
  induction entries with
  | nil => intro scratch; rfl
  | cons e rest ih =>
    intro scratch
    have ih2 := ih (fun q hq => h q (List.mem_cons_of_mem e hq))
    by_cases h1 : e.server_uri.isEmpty
    · simp [find_security_instance, h1, ih2]
    · by_cases h2 : e.security_mode != LWM2M_SECURITY_MODE_PSK
      · simp [find_security_instance, h1, h2, ih2]
      · cases hparse : coap_endpoint_parse e.server_uri e.server_uri.length scratch with
        | none => simp [find_security_instance, h1, h2, hparse, ih2]
        | some ep =>
          have hcmp : coap_endpoint_cmp addr ep = false := by
            rcases h e (List.mem_cons_self e rest) with hu | hm | hp
            · exact absurd (by simp [hu]) h1
            · exact absurd (by simpa using hm) h2
            · exact hp scratch ep hparse
          simp [find_security_instance, h1, h2, hparse, hcmp, ih2]

/-- C9: the LWM2M keystore yields no credential when no entry's server URI
parses to an endpoint equal to the peer's — in particular with a single
entry registered for a different peer — and entries with an empty server
URI or a non-PSK security mode are skipped without affecting the scan. -/
theorem lwm2m_keystore_no_match_spec :
    (∀ (entries : List lwm2m_security_value_t) (addr : coap_endpoint_t)
       (info : coap_keystore_psk_entry_t) (s0 : coap_endpoint_t),
       (∀ e ∈ entries,
          e.server_uri = [] ∨ e.security_mode ≠ LWM2M_SECURITY_MODE_PSK ∨
          (∀ (s ep : coap_endpoint_t),
             coap_endpoint_parse e.server_uri e.server_uri.length s = some ep →
             coap_endpoint_cmp addr ep = false)) →
       lwm2m_get_psk_info entries addr info s0 = none)
    ∧ (∀ (e : lwm2m_security_value_t) (rest : List lwm2m_security_value_t)
       (addr : coap_endpoint_t) (identity : List Char) (s : coap_endpoint_t),
       e.server_uri = [] →
       find_security_instance addr identity (e :: rest) s
         = find_security_instance addr identity rest s)
    ∧ (∀ (e : lwm2m_security_value_t) (rest : List lwm2m_security_value_t)
       (addr : coap_endpoint_t) (identity : List Char) (s : coap_endpoint_t),
       e.security_mode ≠ LWM2M_SECURITY_MODE_PSK →
       find_security_instance addr identity (e :: rest) s
         = find_security_instance addr identity rest s) := by
  refine ⟨?_, ?_, ?_⟩
  · intro entries addr info s0 h
    unfold lwm2m_get_psk_info
    rw [find_security_instance_no_match addr info.identity entries h s0]
  · intro e rest addr identity s hu
    simp [find_security_instance, hu]
  · intro e rest addr identity s hm
    by_cases h1 : e.server_uri.isEmpty
    · simp [find_security_instance, h1]
    · simp [find_security_instance, h1, bne_iff_ne, hm]

/-- Witness for C9: one PSK entry registered for `coap://[fd00::1]`,
queried for the peer `2001:db8::1` — no credential. -/
theorem lwm2m_keystore_no_match_spec_witness :
    lwm2m_get_psk_info [sec_entry_fd00] peer_other
      { identity_hint := [], identity := [], key := [] } ep_zero = none := by
  apply lwm2m_keystore_no_match_spec.1
  intro e he
  have he2 : e = sec_entry_fd00 := by
    simpa using he
  subst he2
  refine Or.inr (Or.inr ?_)
  intro s ep hparse
  have hval : coap_endpoint_parse sec_entry_fd00.server_uri
      sec_entry_fd00.server_uri.length s = some ⟨addr_fd00_1, 5683, false⟩ := rfl
  rw [hval] at hparse
  cases hparse
  decide

end CoapCore
